import Mathlib

/-!
Verification of the exam-administration backend (`src/index.js`) against its
natural-language specification.  The relevant handlers are shallowly embedded
as Lean functions: Firestore collections become lists or string-indexed
functions, the Realtime-Database trees become association lists, and each
handler's control flow (validation, tallying, deletion) is translated
branch-for-branch from the JavaScript source.
-/

/-! ## Results aggregation (GET /api/today-exam-results, src/index.js lines 702-810)

A candidate answer document (sub-collection `answers` of a candidate document):
fields `order`, `answer`, `skipped` as used by the tally loop (lines 759-767). -/

structure AnswerRec where
  order : Nat
  answer : Nat
  skipped : Bool
deriving DecidableEq

/-- A question document as used by the tally: fields `order` and
`correctAnswer` (lines 760-764). -/
structure QuestionRec where
  order : Nat
  correctAnswer : Nat
deriving DecidableEq

/-- `answers.find(a => a.order === question.order)` (line 760): the first
answer record whose `order` equals the question's `order`. -/
def findAnswer (answers : List AnswerRec) (o : Nat) : Option AnswerRec :=
  answers.find? (fun a => a.order == o)

/-- The two mutable counters of the tally loop (lines 756-757). -/
structure Tally where
  correctAnswers : Nat
  skippedQuestions : Nat
deriving DecidableEq

/-- One iteration of `examQuestions.forEach` (lines 759-767):
if no matching answer or the matching answer is flagged skipped, increment
`skippedQuestions`; else if the answer equals `correctAnswer`, increment
`correctAnswers`; otherwise leave both counters unchanged. -/
def tallyStep (answers : List AnswerRec) (t : Tally) (q : QuestionRec) : Tally :=
  match findAnswer answers q.order with
  | none => ⟨t.correctAnswers, t.skippedQuestions + 1⟩
  | some a =>
      if a.skipped then ⟨t.correctAnswers, t.skippedQuestions + 1⟩
      else if a.answer == q.correctAnswer then ⟨t.correctAnswers + 1, t.skippedQuestions⟩
      else t

/-- The whole tally loop, starting from `correctAnswers = 0`,
`skippedQuestions = 0`. -/
def computeTally (questions : List QuestionRec) (answers : List AnswerRec) : Tally :=
  questions.foldl (tallyStep answers) ⟨0, 0⟩

/-- Declarative reading: the question counts as correct (a matching answer
exists, is not skipped, and equals `correctAnswer`). -/
def isCorrectQ (answers : List AnswerRec) (q : QuestionRec) : Bool :=
  match findAnswer answers q.order with
  | none => false
  | some a => !a.skipped && a.answer == q.correctAnswer

/-- Declarative reading: the question counts as skipped (no matching answer,
or the matching answer is flagged skipped). -/
def isSkippedQ (answers : List AnswerRec) (q : QuestionRec) : Bool :=
  match findAnswer answers q.order with
  | none => true
  | some a => a.skipped

/-- Declarative reading: the question counts as wrong (a matching answer
exists, is not skipped, and differs from `correctAnswer`). -/
def isWrongQ (answers : List AnswerRec) (q : QuestionRec) : Bool :=
  match findAnswer answers q.order with
  | none => false
  | some a => !a.skipped && !(a.answer == q.correctAnswer)

/-- A candidate document (collection `candidates`) with its `answers`
sub-collection (lines 745-753). -/
structure CandidateRec where
  id : String
  candidateName : String
  phone : String
  exam : String
  answers : List AnswerRec
deriving DecidableEq

/-- The `resultData` object built per candidate (lines 770-778).
`wrongAnswers` is computed as `examQuestions.length - (correctAnswers +
skippedQuestions)` — JavaScript number arithmetic, embedded as `Int`. -/
structure ResultData where
  registrationNumber : String
  candidateName : String
  phone : String
  totalQuestions : Nat
  correctAnswers : Nat
  skippedQuestions : Nat
  wrongAnswers : Int
deriving DecidableEq

/-- Per-candidate result computation (lines 745-778): run the tally loop on
the candidate's answers and build `resultData`. -/
def candidateResult (examQuestions : List QuestionRec) (c : CandidateRec) : ResultData :=
  let t := computeTally examQuestions c.answers
  ⟨c.id, c.candidateName, c.phone, examQuestions.length, t.correctAnswers, t.skippedQuestions,
    (examQuestions.length : Int) - ((t.correctAnswers : Int) + (t.skippedQuestions : Int))⟩

/-- An exam document: id (the title), the optional `dateTime.date` field, and
its `Questions` sub-collection (unordered, as stored). -/
structure ExamDoc where
  id : String
  date : Option String
  questions : List QuestionRec
deriving DecidableEq

/-- `orderBy('order')` on the questions snapshot (line 721): the snapshot
sorted ascending by the `order` field. -/
def sortQuestions (qs : List QuestionRec) : List QuestionRec :=
  List.insertionSort (fun a b => a.order ≤ b.order) qs

/-- The whole results computation (lines 702-800): pick the first exam whose
`dateTime.date` equals today, load its questions sorted by `order`, filter the
candidates enrolled in that exam, and map each to its `resultData`.  Returns
`none` when no exam is scheduled today (the 404 branch, lines 730-735). -/
def computeTodayResults (today : String) (exams : List ExamDoc)
    (candidates : List CandidateRec) : Option (ExamDoc × List ResultData) :=
  match exams.find? (fun e => e.date == some today) with
  | none => none
  | some e =>
      some (e, (candidates.filter (fun c => c.exam == e.id)).map
        (candidateResult (sortQuestions e.questions)))

lemma tallyStep_correct (answers : List AnswerRec) (t : Tally) (q : QuestionRec) :
    (tallyStep answers t q).correctAnswers
      = t.correctAnswers + (if isCorrectQ answers q then 1 else 0) := by
  unfold tallyStep isCorrectQ
  cases h : findAnswer answers q.order with
  | none => simp
  | some a =>
      cases hs : a.skipped with
      | true => simp [hs]
      | false =>
          cases he : a.answer == q.correctAnswer with
          | true => simp [hs, he]
          | false => simp [hs, he]

lemma tallyStep_skipped (answers : List AnswerRec) (t : Tally) (q : QuestionRec) :
    (tallyStep answers t q).skippedQuestions
      = t.skippedQuestions + (if isSkippedQ answers q then 1 else 0) := by
  unfold tallyStep isSkippedQ
  cases h : findAnswer answers q.order with
  | none => simp
  | some a =>
      cases hs : a.skipped with
      | true => simp [hs]
      | false =>
          cases he : a.answer == q.correctAnswer with
          | true => simp [hs, he]
          | false => simp [hs, he]

lemma foldl_tally_counts (answers : List AnswerRec) :
    ∀ (qs : List QuestionRec) (t : Tally),
      (qs.foldl (tallyStep answers) t).correctAnswers
          = t.correctAnswers + qs.countP (isCorrectQ answers)
      ∧ (qs.foldl (tallyStep answers) t).skippedQuestions
          = t.skippedQuestions + qs.countP (isSkippedQ answers)
  | [], t => by simp
  | q :: qs, t => by
      have ih := foldl_tally_counts answers qs (tallyStep answers t q)
      simp only [List.foldl_cons, List.countP_cons] at *
      rw [ih.1, ih.2, tallyStep_correct, tallyStep_skipped]
      omega

lemma computeTally_correct (qs : List QuestionRec) (answers : List AnswerRec) :
    (computeTally qs answers).correctAnswers = qs.countP (isCorrectQ answers) := by
  have h := foldl_tally_counts answers qs ⟨0, 0⟩
  simpa [computeTally] using h.1

lemma computeTally_skipped (qs : List QuestionRec) (answers : List AnswerRec) :
    (computeTally qs answers).skippedQuestions = qs.countP (isSkippedQ answers) := by
  have h := foldl_tally_counts answers qs ⟨0, 0⟩
  simpa [computeTally] using h.2

lemma outcome_trichotomy (answers : List AnswerRec) (q : QuestionRec) :
    (if isCorrectQ answers q then 1 else 0) + (if isSkippedQ answers q then 1 else 0)
      + (if isWrongQ answers q then 1 else 0) = 1 := by
  unfold isCorrectQ isSkippedQ isWrongQ
  cases h : findAnswer answers q.order with
  | none => simp
  | some a =>
      cases hs : a.skipped with
      | true => simp [hs]
      | false =>
          cases he : a.answer == q.correctAnswer with
          | true => simp [hs, he]
          | false => simp [hs, he]

lemma countP_outcomes (answers : List AnswerRec) :
    ∀ qs : List QuestionRec,
      qs.countP (isCorrectQ answers) + qs.countP (isSkippedQ answers)
        + qs.countP (isWrongQ answers) = qs.length
  | [] => by simp
  | q :: qs => by
      have ih := countP_outcomes answers qs
      have h := outcome_trichotomy answers q
      simp only [List.countP_cons, List.length_cons]
      omega

lemma countP_bound (answers : List AnswerRec) (qs : List QuestionRec) :
    qs.countP (isCorrectQ answers) + qs.countP (isSkippedQ answers) ≤ qs.length := by
  have h := countP_outcomes answers qs
  omega

/-- C1: In `computeTodayResults`, for every candidate and every question of
today's exam, the (first) answer record whose `order` equals the question's
`order` decides the tally: `correctAnswers` counts exactly the questions with
a matching, non-skipped answer equal to `correctAnswer`; `skippedQuestions`
counts exactly the questions with no matching answer or a skipped matching
answer; and the remaining questions contribute to `wrongAnswers` only through
the derived subtraction, which coincides with the direct count of matched,
non-skipped, non-equal answers. -/
theorem c1_tally_decides (examQuestions : List QuestionRec) (c : CandidateRec) :
    (candidateResult examQuestions c).correctAnswers
        = examQuestions.countP (isCorrectQ c.answers)
    ∧ (candidateResult examQuestions c).skippedQuestions
        = examQuestions.countP (isSkippedQ c.answers)
    ∧ (candidateResult examQuestions c).wrongAnswers
        = (examQuestions.countP (isWrongQ c.answers) : Int) := by
  refine ⟨?_, ?_, ?_⟩
  · simpa [candidateResult] using computeTally_correct examQuestions c.answers
  · simpa [candidateResult] using computeTally_skipped examQuestions c.answers
  · have hc := computeTally_correct examQuestions c.answers
    have hs := computeTally_skipped examQuestions c.answers
    have hsum := countP_outcomes c.answers examQuestions
    simp only [candidateResult, hc, hs]
    omega

/-- C2: every per-candidate result record produced by `computeTodayResults`
satisfies `wrongAnswers = totalQuestions - (correctAnswers + skippedQuestions)`. -/
theorem c2_wrong_derived (today : String) (exams : List ExamDoc)
    (cands : List CandidateRec) (e : ExamDoc) (res : List ResultData)
    (h : computeTodayResults today exams cands = some (e, res)) :
    ∀ r ∈ res, r.wrongAnswers
      = (r.totalQuestions : Int) - ((r.correctAnswers : Int) + (r.skippedQuestions : Int)) := by
  intro r hr
  unfold computeTodayResults at h
  cases hfind : exams.find? (fun e2 => e2.date == some today) with
  | none => rw [hfind] at h; exact absurd h (by simp)
  | some e0 =>
      rw [hfind] at h
      simp only [Option.some.injEq, Prod.mk.injEq] at h
      rw [← h.2] at hr
      rcases List.mem_map.mp hr with ⟨c, _, hc⟩
      rw [← hc]
      simp [candidateResult]

/-- Witness for C2 at a concrete store: one exam today, one candidate with one
correct answer. -/
theorem c2_wrong_derived_witness :
    (⟨"R1", "Asha", "99", 1, 1, 0, 0⟩ : ResultData).wrongAnswers
      = ((1 : Nat) : Int) - (((1 : Nat) : Int) + ((0 : Nat) : Int)) := by
  have h := c2_wrong_derived "2026-02-01"
    [⟨"KPSC", some "2026-02-01", [⟨1, 2⟩]⟩]
    [⟨"R1", "Asha", "99", "KPSC", [⟨1, 2, false⟩]⟩]
    ⟨"KPSC", some "2026-02-01", [⟨1, 2⟩]⟩
    [⟨"R1", "Asha", "99", 1, 1, 0, 0⟩]
    (by decide)
  exact h ⟨"R1", "Asha", "99", 1, 1, 0, 0⟩ (by decide)

/-- C8: a candidate with zero answer records is scored "all skipped", not an
error: `skippedQuestions = totalQuestions`, `correctAnswers = 0`,
`wrongAnswers = 0`. -/
theorem c8_zero_answers (examQuestions : List QuestionRec) (c : CandidateRec)
    (h : c.answers = []) :
    candidateResult examQuestions c
      = ⟨c.id, c.candidateName, c.phone, examQuestions.length, 0, examQuestions.length, 0⟩ := by
  have hs : ∀ q : QuestionRec, isSkippedQ c.answers q = true := by
    intro q; simp [isSkippedQ, findAnswer, h]
  have hc : ∀ q : QuestionRec, isCorrectQ c.answers q = false := by
    intro q; simp [isCorrectQ, findAnswer, h]
  have h1 := computeTally_correct examQuestions c.answers
  have h2 := computeTally_skipped examQuestions c.answers
  rw [List.countP_eq_length.mpr (fun a _ => hs a)] at h2
  rw [List.countP_eq_zero.mpr (fun a _ => by simp [hc a])] at h1
  simp only [candidateResult, h1, h2]
  have : ((examQuestions.length : Int)) - (((0 : Nat) : Int) + ((examQuestions.length : Nat) : Int)) = 0 := by
    omega
  simp [this]

/-- Witness for C8: a two-question exam and a candidate with no answers. -/
theorem c8_zero_answers_witness :
    candidateResult [⟨1, 0⟩, ⟨2, 3⟩] ⟨"R2", "Bela", "88", "KPSC", []⟩
      = ⟨"R2", "Bela", "88", 2, 0, 2, 0⟩ :=
  c8_zero_answers [⟨1, 0⟩, ⟨2, 3⟩] ⟨"R2", "Bela", "88", "KPSC", []⟩ rfl

/-- C10: for every result record emitted by `computeTodayResults`,
`correctAnswers + skippedQuestions ≤ totalQuestions` and the derived
`wrongAnswers` is non-negative. -/
theorem c10_counter_bounds (today : String) (exams : List ExamDoc)
    (cands : List CandidateRec) (e : ExamDoc) (res : List ResultData)
    (h : computeTodayResults today exams cands = some (e, res)) :
    ∀ r ∈ res, r.correctAnswers + r.skippedQuestions ≤ r.totalQuestions
      ∧ 0 ≤ r.wrongAnswers := by
  intro r hr
  unfold computeTodayResults at h
  cases hfind : exams.find? (fun e2 => e2.date == some today) with
  | none => rw [hfind] at h; exact absurd h (by simp)
  | some e0 =>
      rw [hfind] at h
      simp only [Option.some.injEq, Prod.mk.injEq] at h
      rw [← h.2] at hr
      rcases List.mem_map.mp hr with ⟨c, _, hc⟩
      rw [← hc]
      have h1 := computeTally_correct (sortQuestions e0.questions) c.answers
      have h2 := computeTally_skipped (sortQuestions e0.questions) c.answers
      have hb := countP_bound c.answers (sortQuestions e0.questions)
      constructor
      · simp only [candidateResult, h1, h2]
        omega
      · simp only [candidateResult, h1, h2]
        omega

/-- Witness for C10 at a concrete store: one exam today with two questions,
one candidate answering one wrong and skipping one. -/
theorem c10_counter_bounds_witness :
    (⟨"R3", "Chitra", "77", 2, 0, 1, 1⟩ : ResultData).correctAnswers
        + (⟨"R3", "Chitra", "77", 2, 0, 1, 1⟩ : ResultData).skippedQuestions
        ≤ (⟨"R3", "Chitra", "77", 2, 0, 1, 1⟩ : ResultData).totalQuestions
      ∧ 0 ≤ (⟨"R3", "Chitra", "77", 2, 0, 1, 1⟩ : ResultData).wrongAnswers := by
  have h := c10_counter_bounds "2026-03-05"
    [⟨"PDO", some "2026-03-05", [⟨1, 1⟩, ⟨2, 0⟩]⟩]
    [⟨"R3", "Chitra", "77", "PDO", [⟨1, 2, false⟩, ⟨2, 0, true⟩]⟩]
    ⟨"PDO", some "2026-03-05", [⟨1, 1⟩, ⟨2, 0⟩]⟩
    [⟨"R3", "Chitra", "77", 2, 0, 1, 1⟩]
    (by decide)
  exact h ⟨"R3", "Chitra", "77", 2, 0, 1, 1⟩ (by decide)

/-! ## Schedule time validation (POST /api/exams/:examTitle/date-time, lines 152-216)

The handler validates `startTime`/`endTime` against the JavaScript regex
`/^(0?[1-9]|1[0-2]):[0-5][0-9]\s?(AM|PM)$/i` (line 165).  Characters are
embedded by their code points (`Char.toNat`): `'0'` = 48 … `'9'` = 57,
`':'` = 58, `' '` = 32, `'A'` = 65, `'a'` = 97, `'P'` = 80, `'p'` = 112,
`'M'` = 77, `'m'` = 109. -/

/-- Code-point test `c = n`. -/
def charIs (n : Nat) (c : Char) : Bool := decide (c.toNat = n)

/-- Code-point range test `lo ≤ c ≤ hi` (a regex character class). -/
def charInRange (lo hi : Nat) (c : Char) : Bool := decide (lo ≤ c.toNat ∧ c.toNat ≤ hi)

/-- The case-insensitive suffix `(AM|PM)` under the regex `i` flag: first
character one of `A a P p`, second one of `M m`. -/
def amPmSuffix (c1 c2 : Char) : Bool :=
  (charIs 65 c1 || charIs 97 c1 || charIs 80 c1 || charIs 112 c1)
    && (charIs 77 c2 || charIs 109 c2)

/-- The JavaScript `\s` character class (ECMAScript WhiteSpace and
LineTerminator code points). -/
def jsWhitespaceChar (c : Char) : Bool :=
  [9, 10, 11, 12, 13, 32, 160, 5760, 8192, 8193, 8194, 8195, 8196, 8197, 8198,
    8199, 8200, 8201, 8202, 8232, 8233, 8239, 8287, 12288, 65279].contains c.toNat

/-- `[0-5][0-9]`: the two minute digits. -/
def minutePair (m1 m2 : Char) : Bool := charInRange 48 53 m1 && charInRange 48 57 m2

/-- `\s?(AM|PM)$` with the separator class a parameter: either exactly the
two suffix characters, or one separator character followed by them. -/
def suffixTail (sepOk : Char → Bool) : List Char → Bool
  | [c1, c2] => amPmSuffix c1 c2
  | [w, c1, c2] => sepOk w && amPmSuffix c1 c2
  | _ => false

/-- `[0-5][0-9]\s?(AM|PM)$`. -/
def minuteSuffixTail (sepOk : Char → Bool) : List Char → Bool
  | m1 :: m2 :: rest => minutePair m1 m2 && suffixTail sepOk rest
  | _ => false

/-- `:[0-5][0-9]\s?(AM|PM)$`, the part of the regex after the hour.  The
regex separator class is `\s`. -/
def colonTail : List Char → Bool
  | c :: rest => charIs 58 c && minuteSuffixTail jsWhitespaceChar rest
  | [] => false

/-- Full match of `/^(0?[1-9]|1[0-2]):[0-5][0-9]\s?(AM|PM)$/i` (line 165).
The anchored alternation `(0?[1-9]|1[0-2])` is decided by the first
character: `0` must be followed by `[1-9]`; `1` is either a complete hour or
followed by `[0-2]` (backtracking union); `2`-`9` stand alone. -/
def timeRegexMatch : List Char → Bool
  | [] => false
  | c :: rest =>
      if c.toNat = 48 then
        match rest with
        | d :: rest2 => charInRange 49 57 d && colonTail rest2
        | [] => false
      else if c.toNat = 49 then
        colonTail rest
          || (match rest with
              | d :: rest2 => charInRange 48 50 d && colonTail rest2
              | [] => false)
      else
        charInRange 50 57 c && colonTail rest

/-- `timeRegex.test(s)` (line 166). -/
def timeRegexTest (s : String) : Bool := timeRegexMatch s.toList

/-- Modelled from the spec's words: the hour written as a one-digit decimal
numeral with value 1-12 (hence 1-9). -/
def specHourOne (c : Char) : Bool :=
  decide (48 ≤ c.toNat ∧ c.toNat ≤ 57 ∧ 1 ≤ c.toNat - 48 ∧ c.toNat - 48 ≤ 12)

/-- Modelled from the spec's words: the hour written as a two-digit decimal
numeral with value 1-12 (a zero-padded 01-09, or 10-12). -/
def specHourTwo (c1 c2 : Char) : Bool :=
  decide (48 ≤ c1.toNat ∧ c1.toNat ≤ 57 ∧ 48 ≤ c2.toNat ∧ c2.toNat ≤ 57
    ∧ 1 ≤ 10 * (c1.toNat - 48) + (c2.toNat - 48)
    ∧ 10 * (c1.toNat - 48) + (c2.toNat - 48) ≤ 12)

/-- Modelled from the spec's words: "a strict 12-hour clock pattern `H:MM
AM/PM` (hour 1-12, minute 00-59, case-insensitive AM/PM, optional space
before the suffix)" — an hour numeral of value 1-12, a colon, two minute
digits (first 0-5), an optional separator character drawn from `sepOk`, and
the AM/PM suffix.  The claim's reading of "optional space" is
`specSpaceSep`; the code's separator class is `jsWhitespaceChar`. -/
def specTimeFormat (sepOk : Char → Bool) : List Char → Bool
  | c1 :: c2 :: rest =>
      if c2.toNat = 58 then specHourOne c1 && minuteSuffixTail sepOk rest
      else
        match rest with
        | c3 :: rest2 =>
            if c3.toNat = 58 then specHourTwo c1 c2 && minuteSuffixTail sepOk rest2
            else false
        | [] => false
  | _ => false

/-- A literal space, the claim's "optional space before the suffix". -/
def specSpaceSep (c : Char) : Bool := charIs 32 c

lemma colonTail_cons (c : Char) (rest : List Char) :
    colonTail (c :: rest)
      = (charIs 58 c && minuteSuffixTail jsWhitespaceChar rest) := rfl

/-- The regex accepts exactly the strings of the spec's shape with the
separator class being JavaScript whitespace. -/
theorem timeRegexMatch_eq_spec :
    ∀ cs : List Char, timeRegexMatch cs = specTimeFormat jsWhitespaceChar cs := by
  intro cs
  match cs with
  | [] => rfl
  | [c1] =>
      by_cases h0 : c1.toNat = 48 <;> by_cases h1 : c1.toNat = 49 <;>
        simp [timeRegexMatch, specTimeFormat, colonTail, h0, h1]
  | c1 :: c2 :: rest =>
      by_cases h2 : c2.toNat = 58
      · by_cases h0 : c1.toNat = 48
        · have hr : charInRange 49 57 c2 = false := by
            simp [charInRange, h2]
          have hs : specHourOne c1 = false := by
            simp [specHourOne, h0]
          simp [timeRegexMatch, specTimeFormat, h0, h2, hr, hs]
        · by_cases h1 : c1.toNat = 49
          · have hs : specHourOne c1 = true := by
              simp [specHourOne, h1]
            have hr : charInRange 48 50 c2 = false := by
              simp [charInRange, h2]
            simp [timeRegexMatch, specTimeFormat, colonTail_cons, charIs, h0, h1, h2, hs, hr]
          · have hs : charInRange 50 57 c1 = specHourOne c1 := by
              simp only [charInRange, specHourOne, decide_eq_decide]
              omega
            simp [timeRegexMatch, specTimeFormat, colonTail_cons, charIs, h0, h1, h2, hs]
      · match rest with
        | [] =>
            by_cases h0 : c1.toNat = 48 <;> by_cases h1 : c1.toNat = 49 <;>
              simp [timeRegexMatch, specTimeFormat, colonTail, minuteSuffixTail,
                charIs, h0, h1, h2]
        | c3 :: rest2 =>
            by_cases h3 : c3.toNat = 58
            · by_cases h0 : c1.toNat = 48
              · have hs : charInRange 49 57 c2 = specHourTwo c1 c2 := by
                  simp only [charInRange, specHourTwo, decide_eq_decide, h0]
                  omega
                simp [timeRegexMatch, specTimeFormat, colonTail_cons, charIs, h0, h2, h3, hs]
              · by_cases h1 : c1.toNat = 49
                · have hs : charInRange 48 50 c2 = specHourTwo c1 c2 := by
                    simp only [charInRange, specHourTwo, decide_eq_decide, h1]
                    omega
                  simp [timeRegexMatch, specTimeFormat, colonTail_cons, charIs, h0, h1, h2, h3, hs]
                · have hs : specHourTwo c1 c2 = false := by
                    simp only [specHourTwo, decide_eq_false_iff_not]
                    omega
                  simp [timeRegexMatch, specTimeFormat, colonTail_cons, charIs, h0, h1, h2, h3, hs]
            · by_cases h0 : c1.toNat = 48 <;> by_cases h1 : c1.toNat = 49 <;>
                simp [timeRegexMatch, specTimeFormat, colonTail_cons, charIs, h0, h1, h2, h3]

/-- JavaScript truthiness of an optional string body field: absent
(`undefined`) and the empty string are falsy. -/
def truthyOptStr : Option String → Bool
  | none => false
  | some s => decide (¬ s = "")

/-- The status code of POST /api/exams/:examTitle/date-time (lines 152-216):
400 when a required field is missing/falsy (line 158), 400 when either time
string fails `timeRegex.test` (line 166), else 200 (the success write path).
`marksDefined`/`priceDefined` model `marks === undefined` /
`price === undefined`. -/
def setExamScheduleStatus (examTitle : String) (date startTime endTime : Option String)
    (marksDefined priceDefined : Bool) : Nat :=
  if decide (examTitle = "") || !truthyOptStr date || !truthyOptStr startTime
      || !truthyOptStr endTime || !marksDefined || !priceDefined then 400
  else if !(timeRegexTest (startTime.getD "") && timeRegexTest (endTime.getD "")) then 400
  else 200

/-- C5 (amended): with all required fields present, `setExamSchedule` answers
200 exactly when both time strings match the 12-hour pattern `H:MM AM/PM`
with hour 1-12 (optionally zero-padded to two digits), minute 00-59,
case-insensitive AM/PM, and an optional single whitespace character (the
JavaScript `\s` class, not only a space) before the suffix — and 400 exactly
when at least one of them does not. -/
theorem c5_schedule_time_validation (examTitle d s e : String)
    (ht : examTitle ≠ "") (hd : d ≠ "") (hs : s ≠ "") (he : e ≠ "") :
    (setExamScheduleStatus examTitle (some d) (some s) (some e) true true = 200
      ↔ (specTimeFormat jsWhitespaceChar s.toList = true
          ∧ specTimeFormat jsWhitespaceChar e.toList = true))
    ∧ (setExamScheduleStatus examTitle (some d) (some s) (some e) true true = 400
      ↔ ¬ (specTimeFormat jsWhitespaceChar s.toList = true
          ∧ specTimeFormat jsWhitespaceChar e.toList = true)) := by
  have hrw : ∀ x : String, timeRegexTest x = specTimeFormat jsWhitespaceChar x.toList := by
    intro x; exact timeRegexMatch_eq_spec x.toList
  unfold setExamScheduleStatus
  simp only [truthyOptStr, ht, hd, hs, he, Option.getD, hrw]
  cases hS : specTimeFormat jsWhitespaceChar s.toList <;>
    cases hE : specTimeFormat jsWhitespaceChar e.toList <;>
      simp [ht, hd, hs, he]

/-- Witness for C5: valid fields with times "1:45 PM" and "12:30 am" are
accepted with 200. -/
theorem c5_schedule_time_validation_witness :
    setExamScheduleStatus "KPSC Prelims" (some "2026-02-01") (some "1:45 PM")
      (some "12:30 am") true true = 200 :=
  ((c5_schedule_time_validation "KPSC Prelims" "2026-02-01" "1:45 PM" "12:30 am"
      (by decide) (by decide) (by decide) (by decide)).1).mpr (by decide)

/-- Counterexample to C5 as stated: the string "1:00\tPM" (a TAB before the
suffix) does not match the claim's pattern, whose separator is "optional
space", yet the handler accepts it — `timeRegex` matches any `\s` character,
and the request is answered 200, not rejected with 400. -/
theorem c5_counterexample :
    timeRegexTest "1:00\tPM" = true
    ∧ specTimeFormat specSpaceSep "1:00\tPM".toList = false
    ∧ setExamScheduleStatus "KPSC Prelims" (some "2026-02-01") (some "1:00\tPM")
        (some "1:45 PM") true true = 200 := by
  refine ⟨by decide, by decide, by decide⟩

/-! ## Question creation (POST /api/exams/:examTitle/questions, lines 32-88) -/

/-- One digit code point `[0-9]`. -/
def isDigitCp (n : Nat) : Bool := decide (48 ≤ n ∧ n ≤ 57)

/-- Accumulate the leading decimal digits (`parseInt` reads digits until the
first non-digit). -/
def takeDigitsVal : List Char → Nat → Nat
  | c :: cs, acc =>
      if isDigitCp c.toNat then takeDigitsVal cs (acc * 10 + (c.toNat - 48)) else acc
  | [], acc => acc

/-- The leading digit run as a number, or `none` when the first character is
not a digit. -/
def parseLeadingNat : List Char → Option Nat
  | [] => none
  | c :: cs => if isDigitCp c.toNat then some (takeDigitsVal (c :: cs) 0) else none

/-- JavaScript `parseInt(s, 10)`: skip leading whitespace, read an optional
sign, then require at least one decimal digit; `none` models `NaN`.
Non-digit trailing characters are ignored (so "3.5" parses to 3). -/
def parseIntJs (s : String) : Option Int :=
  match s.toList.dropWhile (fun c => jsWhitespaceChar c) with
  | [] => none
  | c :: rest =>
      if c.toNat = 43 then (parseLeadingNat rest).map (fun n => (n : Int))
      else if c.toNat = 45 then (parseLeadingNat rest).map (fun n => -(n : Int))
      else (parseLeadingNat (c :: rest)).map (fun n => (n : Int))

/-- The `options` body field, represented by what `JSON.parse` would do to
it: absent, the (falsy) empty string, a string that fails to parse (the
thrown `SyntaxError`), a JSON array of `n` entries, or other valid JSON. -/
inductive OptionsField where
  | emptyStr : OptionsField
  | parseError : OptionsField
  | parsedArray : Nat → OptionsField
  | parsedOther : OptionsField
deriving DecidableEq

/-- The request body/params of the add-question handler.  `examTitle` comes
from the URL (always a string, falsy when empty); the body fields are
`undefined` when absent. -/
structure AddQuestionReq where
  examTitle : String
  question : Option String
  options : Option OptionsField
  correctAnswer : Option String
deriving DecidableEq

/-- Falsiness of the `options` field before parsing (`!options`, line 39). -/
def falsyOptionsField : Option OptionsField → Bool
  | none => true
  | some .emptyStr => true
  | some _ => false

/-- Line 39: `!examTitle || !question || !options || correctAnswer === undefined`. -/
def addQMissing (req : AddQuestionReq) : Bool :=
  decide (req.examTitle = "") || !truthyOptStr req.question
    || falsyOptionsField req.options || decide (req.correctAnswer = none)

/-- The handler's response: HTTP status and the `order` echoed on success. -/
structure AddQuestionResp where
  status : Nat
  order : Option Nat
deriving DecidableEq

/-- The add-question handler (lines 32-88) over a store mapping an exam
title to the `order` values of its existing questions (the only stored data
the claims concern).  Control flow: 400 on missing fields (lines 39-41);
`JSON.parse(options)` throwing lands in the catch block as a 500 (lines
84-87); 400 when the parse result is not an array of exactly 4 or when
`parseInt(correctAnswer, 10)` is NaN (lines 47-49); otherwise order is the
current question count plus one (lines 56-57) and the question is appended. -/
def addQuestion (req : AddQuestionReq) (store : String → List Nat) :
    AddQuestionResp × (String → List Nat) :=
  if addQMissing req then (⟨400, none⟩, store)
  else
    match req.options, req.correctAnswer with
    | some .parseError, _ => (⟨500, none⟩, store)
    | some (.parsedArray n), some ca =>
        if decide (¬ n = 4) || decide (parseIntJs ca = none) then (⟨400, none⟩, store)
        else
          (⟨200, some ((store req.examTitle).length + 1)⟩,
            fun x => if x = req.examTitle
              then store req.examTitle ++ [(store req.examTitle).length + 1]
              else store x)
    | some .parsedOther, _ => (⟨400, none⟩, store)
    | _, _ => (⟨400, none⟩, store)

/-- A well-formed add-question request for exam `e`, used to state the
sequential-creation claim. -/
def validAddReq (e : String) : AddQuestionReq :=
  ⟨e, some "Sample question", some (.parsedArray 4), some "1"⟩

/-- One sequential creation step: run the handler and keep the new store. -/
def addStep (store : String → List Nat) (e : String) : String → List Nat :=
  (addQuestion (validAddReq e) store).2

/-- A sequence of question creations, possibly interleaving several exams. -/
def runAdds (store : String → List Nat) (ops : List String) : String → List Nat :=
  ops.foldl addStep store

lemma parseIntJs_one : parseIntJs "1" = some 1 := by decide

lemma addStep_eq (store : String → List Nat) (e : String) (he : ¬ e = "") :
    addStep store e
      = fun x => if x = e then store e ++ [(store e).length + 1] else store x := by
  simp [addStep, addQuestion, validAddReq, addQMissing, truthyOptStr,
    falsyOptionsField, he, parseIntJs_one]

lemma addStep_other (store : String → List Nat) (t x : String) (hx : ¬ x = t) :
    addStep store t x = store x := by
  by_cases ht : t = ""
  · subst ht
    simp [addStep, addQuestion, validAddReq, addQMissing, truthyOptStr, falsyOptionsField]
  · rw [addStep_eq store t ht]
    simp [hx]

lemma runAdds_range (e : String) (he : ¬ e = "") :
    ∀ (ops : List String) (store : String → List Nat) (m : Nat),
      store e = List.range' 1 m
      → runAdds store ops e = List.range' 1 (m + ops.count e)
  | [], store, m, hm => by simpa [runAdds] using hm
  | t :: ops, store, m, hm => by
      by_cases hte : t = e
      · have hstep : addStep store t e = List.range' 1 (m + 1) := by
          rw [hte, addStep_eq store e he]
          simp [hm, List.range'_concat, Nat.add_comm]
        have ih := runAdds_range e he ops (addStep store t) (m + 1) hstep
        have hcount : (t :: ops).count e = ops.count e + 1 := by
          simp [List.count_cons, hte]
        rw [runAdds, List.foldl_cons, ← runAdds, ih, hcount]
        have harith : m + 1 + ops.count e = m + (ops.count e + 1) := by omega
        rw [harith]
      · have hstep : addStep store t e = List.range' 1 m := by
          rw [addStep_other store t e (by simpa using Ne.symm hte)]
          exact hm
        have ih := runAdds_range e he ops (addStep store t) m hstep
        have hcount : (t :: ops).count e = ops.count e := by
          simp [List.count_cons, hte]
        rw [runAdds, List.foldl_cons, ← runAdds, ih, hcount]

/-- C6: the handler assigns the new question an `order` equal to the current
question count of that exam plus one; hence creating questions for a fresh
exam in sequence yields order values 1..N, no matter how creations for other
exams are interleaved. -/
theorem c6_sequential_orders (store : String → List Nat) (ops : List String)
    (e : String) (he : e ≠ "") (h0 : store e = []) :
    runAdds store ops e = List.range' 1 (ops.count e)
    ∧ (addQuestion (validAddReq e) store).1.order = some ((store e).length + 1) := by
  constructor
  · have h := runAdds_range e he ops store 0 (by rw [h0]; rfl)
    simpa using h
  · simp [addQuestion, validAddReq, addQMissing, truthyOptStr, falsyOptionsField, he,
      parseIntJs_one]

/-- Witness for C6: four creations, three on "ExamA" interleaved with one on
"ExamB", starting from an empty store, give "ExamA" the orders [1, 2, 3]. -/
theorem c6_sequential_orders_witness :
    runAdds (fun _ => []) ["ExamA", "ExamB", "ExamA", "ExamA"] "ExamA" = [1, 2, 3] := by
  have h := (c6_sequential_orders (fun _ => []) ["ExamA", "ExamB", "ExamA", "ExamA"]
    "ExamA" (by decide) rfl).1
  simpa using h

/-- C7 (amended): the handler answers 400 exactly when a required field is
missing/falsy, or `options` parses as JSON to something other than an array
of exactly 4 entries, or `parseInt(correctAnswer, 10)` is NaN; it answers 500
(not 400) when `options` is present but not valid JSON, because the thrown
parse error lands in the catch block; it answers 200 — and only then touches
the store — exactly when every validation passes. -/
theorem c7_validation (req : AddQuestionReq) (store : String → List Nat) :
    ((addQuestion req store).1.status = 400
      ↔ (addQMissing req = true
          ∨ (addQMissing req = false ∧ req.options = some .parsedOther)
          ∨ (addQMissing req = false
              ∧ (∃ n, req.options = some (.parsedArray n) ∧ ¬ n = 4))
          ∨ (addQMissing req = false ∧ req.options = some (.parsedArray 4)
              ∧ (∃ ca, req.correctAnswer = some ca ∧ parseIntJs ca = none))))
    ∧ ((addQuestion req store).1.status = 500
      ↔ (addQMissing req = false ∧ req.options = some .parseError))
    ∧ ((addQuestion req store).1.status = 200
      ↔ (addQMissing req = false ∧ req.options = some (.parsedArray 4)
          ∧ (∃ ca, req.correctAnswer = some ca ∧ ¬ parseIntJs ca = none)))
    ∧ ((addQuestion req store).2 = store ∨ (addQuestion req store).1.status = 200) := by
  by_cases hm : addQMissing req = true
  · simp [addQuestion, hm]
  · have hm' : addQMissing req = false := by simpa using hm
    have hca : ¬ req.correctAnswer = none := by
      intro hcn
      simp [addQMissing, hcn] at hm'
    rcases hop : req.options with _ | f
    · simp [addQMissing, hop, falsyOptionsField] at hm'
    · cases f with
      | emptyStr => simp [addQMissing, hop, falsyOptionsField] at hm'
      | parseError => simp [addQuestion, hm', hop]
      | parsedOther => simp [addQuestion, hm', hop]
      | parsedArray n =>
          rcases hcae : req.correctAnswer with _ | ca
          · exact absurd hcae hca
          · by_cases h4 : n = 4
            · by_cases hp : parseIntJs ca = none
              · simp [addQuestion, hm', hop, hcae, h4, hp]
              · simp [addQuestion, hm', hop, hcae, h4, hp]
            · simp [addQuestion, hm', hop, hcae, h4]

/-- Witness for C7: a fully valid request is accepted with 200. -/
theorem c7_validation_witness :
    (addQuestion ⟨"ExamA", some "What is 2+2?", some (.parsedArray 4), some "2"⟩
      (fun _ => [])).1.status = 200 :=
  ((c7_validation ⟨"ExamA", some "What is 2+2?", some (.parsedArray 4), some "2"⟩
      (fun _ => [])).2.2.1).mpr
    ⟨by decide, rfl, "2", rfl, by decide⟩

/-- Counterexample to C7 as stated: a request with every field present and a
`correctAnswer` of "2", whose `options` string is not valid JSON (`JSON.parse`
throws, so it certainly "does not parse to exactly 4 entries"), is answered
500 by the catch block, not 400. -/
theorem c7_counterexample :
    (addQuestion ⟨"ExamA", some "What is 2+2?", some .parseError, some "2"⟩
        (fun _ => [])).1.status = 500
    ∧ ¬ (addQuestion ⟨"ExamA", some "What is 2+2?", some .parseError, some "2"⟩
        (fun _ => [])).1.status = 400 := by
  refine ⟨by decide, by decide⟩

/-! ## Question deletion (DELETE /api/exams/:examTitle/questions/:questionId, lines 131-147) -/

/-- A stored question document with all its fields (lines 60-66). -/
structure StoredQuestion where
  qid : String
  question : String
  options : List String
  correctAnswer : Nat
  order : Nat
deriving DecidableEq

/-- The delete handler: `questionDoc.delete()` removes the document with id
`questionId` from the `Questions` sub-collection of exam `examTitle`; nothing
else is read or written. -/
def deleteQuestion (store : String → List StoredQuestion) (examTitle qid : String) :
    String → List StoredQuestion :=
  fun x => if x = examTitle
    then (store examTitle).filter (fun q => decide (¬ q.qid = qid))
    else store x

/-- C9: deleting a question removes only the addressed document.  Every other
question of the same exam survives with the identical record (in particular
the same `order` — no renumbering), and every other exam's questions are
untouched. -/
theorem c9_delete_frame (store : String → List StoredQuestion) (examTitle qid : String) :
    (∀ q, q ∈ deleteQuestion store examTitle qid examTitle
        ↔ (q ∈ store examTitle ∧ ¬ q.qid = qid))
    ∧ (∀ e2, ¬ e2 = examTitle → deleteQuestion store examTitle qid e2 = store e2) := by
  constructor
  · intro q
    simp [deleteQuestion, List.mem_filter, and_comm]
  · intro e2 h
    simp [deleteQuestion, h]

/-- Witness for C9: in a three-question exam, deleting "q2" keeps "q3" with
its order 3 intact, and leaves the other exam alone. -/
theorem c9_delete_frame_witness :
    (⟨"q3", "Third", ["a", "b", "c", "d"], 1, 3⟩ : StoredQuestion)
        ∈ deleteQuestion
          (fun x => if x = "E" then
              [⟨"q1", "First", ["a", "b", "c", "d"], 0, 1⟩,
               ⟨"q2", "Second", ["a", "b", "c", "d"], 2, 2⟩,
               ⟨"q3", "Third", ["a", "b", "c", "d"], 1, 3⟩]
            else []) "E" "q2" "E"
    ∧ deleteQuestion
        (fun x => if x = "E" then
            [⟨"q1", "First", ["a", "b", "c", "d"], 0, 1⟩,
             ⟨"q2", "Second", ["a", "b", "c", "d"], 2, 2⟩,
             ⟨"q3", "Third", ["a", "b", "c", "d"], 1, 3⟩]
          else []) "E" "q2" "F"
      = (fun x => if x = "E" then
            [⟨"q1", "First", ["a", "b", "c", "d"], 0, 1⟩,
             ⟨"q2", "Second", ["a", "b", "c", "d"], 2, 2⟩,
             ⟨"q3", "Third", ["a", "b", "c", "d"], 1, 3⟩]
          else []) "F" := by
  constructor
  · exact ((c9_delete_frame
      (fun x => if x = "E" then
          [⟨"q1", "First", ["a", "b", "c", "d"], 0, 1⟩,
           ⟨"q2", "Second", ["a", "b", "c", "d"], 2, 2⟩,
           ⟨"q3", "Third", ["a", "b", "c", "d"], 1, 3⟩]
        else []) "E" "q2").1
      ⟨"q3", "Third", ["a", "b", "c", "d"], 1, 3⟩).mpr ⟨by decide, by decide⟩
  · exact (c9_delete_frame
      (fun x => if x = "E" then
          [⟨"q1", "First", ["a", "b", "c", "d"], 0, 1⟩,
           ⟨"q2", "Second", ["a", "b", "c", "d"], 2, 2⟩,
           ⟨"q3", "Third", ["a", "b", "c", "d"], 1, 3⟩]
        else []) "E" "q2").2 "F" (by decide)

/-! ## Collection reads and single-item reads (C3)

GET /api/syllabus (lines 394-422), GET /api/all-exam-results (lines 812-859),
GET /api/candidates (lines 626-646), GET /api/concerns (lines 538-569), and
the single-item read GET /api/exams/:examTitle/date-time (lines 219-248). -/

/-- A syllabus record of the `Syllabus` tree. -/
structure SyllabusRec where
  id : String
  examTitle : String
  syllabusLink : String
deriving DecidableEq

/-- GET /api/syllabus: when the snapshot does not exist (empty tree), 200
with empty `data`; otherwise 200 with the tree (lines 399-413). -/
def getSyllabusResponse (tree : List SyllabusRec) : Nat × List SyllabusRec :=
  if tree.isEmpty then (200, []) else (200, tree)

/-- GET /api/all-exam-results: when `Results` is empty, 200 with empty
`data` (lines 822-828); otherwise 200 with the reshaped tree (lines 831-849),
keyed by exam id. -/
def getAllExamResultsResponse (tree : List (String × List ResultData)) :
    Nat × List (String × List ResultData) :=
  if tree.isEmpty then (200, []) else (200, tree)

/-- GET /api/candidates: 404 when the snapshot is empty (lines 631-633),
otherwise 200. -/
def getCandidatesStatus {α : Type} (docs : List α) : Nat :=
  if docs.isEmpty then 404 else 200

/-- GET /api/concerns: 404 when the snapshot is empty (lines 546-550),
otherwise 200. -/
def getConcernsStatus {α : Type} (docs : List α) : Nat :=
  if docs.isEmpty then 404 else 200

/-- The schedule record stored in the `ExamDateTime` tree. -/
structure DateTimeData where
  date : String
  startTime : String
  endTime : String
deriving DecidableEq

/-- GET /api/exams/:examTitle/date-time: 404 when `snapshot.val()` is null
(lines 230-234), otherwise 200. -/
def getExamDateTimeStatus (stored : Option DateTimeData) : Nat :=
  match stored with
  | none => 404
  | some _ => 200

/-- C3 (amended): the empty-payload-success contract holds for the syllabus
and all-exam-results collection reads (always 200, with an empty payload when
the store is empty), and the single-item schedule read is 404 exactly when
the record is absent — but the candidates and concerns collection reads
answer 404, not success, on an empty collection. -/
theorem c3_read_contracts :
    (∀ tree : List SyllabusRec, getSyllabusResponse tree = (200, tree))
    ∧ (∀ tree : List (String × List ResultData), getAllExamResultsResponse tree = (200, tree))
    ∧ (∀ docs : List String, getCandidatesStatus docs = 404 ↔ docs = [])
    ∧ (∀ docs : List String, getConcernsStatus docs = 404 ↔ docs = [])
    ∧ (∀ stored : Option DateTimeData, getExamDateTimeStatus stored = 404 ↔ stored = none) := by
  refine ⟨?_, ?_, ?_, ?_, ?_⟩
  · intro tree; cases tree <;> simp [getSyllabusResponse]
  · intro tree; cases tree <;> simp [getAllExamResultsResponse]
  · intro docs; cases docs <;> simp [getCandidatesStatus]
  · intro docs; cases docs <;> simp [getConcernsStatus]
  · intro stored; cases stored <;> simp [getExamDateTimeStatus]

/-- Counterexample to C3 as stated: the candidates and concerns collection
reads answer 404 on a genuinely empty collection instead of a success
response with an empty payload. -/
theorem c3_counterexample :
    getCandidatesStatus ([] : List String) = 404
    ∧ getConcernsStatus ([] : List String) = 404
    ∧ ¬ getCandidatesStatus ([] : List String) = 200 := by
  refine ⟨by decide, by decide, by decide⟩

/-! ## Candidate bulk delete (DELETE /api/candidates, lines 863-901)

The handler iterates the snapshot of collection **"Candidates"** (capital C,
line 866), while every reader — GET /api/candidates (line 629) and the
results aggregation (line 738) — reads collection **"candidates"**
(lowercase).  In Firestore these are two distinct collections. -/

/-- A candidate document for the delete handler: id plus named
sub-collections (collection name paired with the ids of its documents; an
empty sub-collection does not exist in Firestore, so scrubbed collections
disappear). -/
structure CandDoc where
  id : String
  subcols : List (String × List String)
deriving DecidableEq

/-- `answersDoc.exists` (lines 876-878): the candidate has a
`SubCollection/answers` document. -/
def answersDocExists (c : CandDoc) : Bool :=
  c.subcols.any (fun p => p.1 == "SubCollection" && p.2.contains "answers")

/-- Delete one document from one named sub-collection of a candidate,
dropping the sub-collection once it has no documents left. -/
def removeSubDoc (c : CandDoc) (col doc : String) : CandDoc :=
  ⟨c.id,
    (c.subcols.map (fun p => if p.1 = col then (p.1, p.2.filter (fun d => decide (¬ d = doc))) else p)).filter
      (fun p => decide (¬ p.2 = []))⟩

/-- Step 1 per candidate (lines 875-880): delete the `SubCollection/answers`
document if it exists. -/
def deleteAnswersDoc (c : CandDoc) : CandDoc :=
  if answersDocExists c then removeSubDoc c "SubCollection" "answers" else c

/-- Step 2 per candidate (lines 882-890): list the remaining sub-collections
and delete every document of each. -/
def scrubSubcols (c : CandDoc) : CandDoc :=
  c.subcols.foldl
    (fun acc p => p.2.foldl (fun acc2 doc => removeSubDoc acc2 p.1 doc) acc) c

/-- Per-candidate processing over the live collection state: apply steps 1-2
to the document with the given id, then delete the candidate document itself
(line 893). -/
def processCandidate (live : List CandDoc) (cid : String) : List CandDoc :=
  (live.map (fun d => if d.id = cid then scrubSubcols (deleteAnswersDoc d) else d)).filter
    (fun d => decide (¬ d.id = cid))

/-- The two collections the claims concern: `"Candidates"` (capital C, the
one the delete handler targets) and `"candidates"` (lowercase, the one every
reader uses). -/
structure FirestoreState where
  candidatesUpper : List CandDoc
  candidatesLower : List CandDoc
deriving DecidableEq

/-- DELETE /api/candidates (lines 863-901): fold the per-candidate
processing over the snapshot of collection "Candidates".  The lowercase
"candidates" collection is never touched. -/
def bulkDeleteCandidates (s : FirestoreState) : FirestoreState :=
  ⟨s.candidatesUpper.foldl (fun live c => processCandidate live c.id) s.candidatesUpper,
    s.candidatesLower⟩

/-- A store in which the lowercase `candidates` collection (the one read by
GET /api/candidates and joined by the results computation) holds one
registered candidate, and the capitalized `Candidates` collection holds one
document with an answers document and another sub-collection. -/
def c4DemoState : FirestoreState :=
  ⟨[⟨"UP1", [("SubCollection", ["answers"]), ("meta", ["m1"])]⟩],
    [⟨"REG1", [("answers", ["a1"])]⟩]⟩

/-- C4 evidence: the bulk delete empties the capitalized "Candidates"
collection it targets, but the lowercase "candidates" collection read by the
other endpoints still contains the registered candidate afterwards —
GET /api/candidates still answers 200 with that document, contradicting the
claim that zero candidate documents remain. -/
theorem c4_bulk_delete_wrong_collection :
    (bulkDeleteCandidates c4DemoState).candidatesUpper = []
    ∧ (bulkDeleteCandidates c4DemoState).candidatesLower
        = [⟨"REG1", [("answers", ["a1"])]⟩]
    ∧ getCandidatesStatus (bulkDeleteCandidates c4DemoState).candidatesLower = 200 := by
  refine ⟨by decide, by decide, by decide⟩
